import Mathlib

/-!
# Verification of the backtesting / risk-management core

A shallow embedding of the repository's historical trade-simulation core:
the `Trade` lifecycle, the stop-loss / take-profit / position-sizing
policies (`src/src/risk_management/`), the bar-by-bar `BacktestEngine`
(`src/src/backtesting/backtest_engine.py`) and the `PerformanceMetrics`
ledger functions (`src/src/backtesting/performance_metrics.py`).

Machine floats are embedded as `Rat` (the arithmetic of the claims is
exact algebra); pandas NaN propagation is embedded as `Option`; a Python
exception crossing the bar loop is embedded as `Except`.  Config
dictionaries with `.get(key, default)` become structures whose fields
carry the source defaults.
-/

namespace CryptoBot

/-- One OHLCV bar of market data (a row of the pandas DataFrame handed to
the engine).  `opn` is the `open` column. -/
structure Bar where
  timestamp : Int
  opn : Rat
  high : Rat
  low : Rat
  close : Rat
  volume : Rat
deriving Repr, DecidableEq

/-! ## Stop-loss manager (`src/src/risk_management/stop_loss.py`) -/

/-- Configuration of `StopLossManager`; field defaults are the
`config.get(…, default)` values of the source. -/
structure StopConfig where
  stopType : String := "percentage"
  value : Rat := 2/100
  atrPeriod : Nat := 14
  multiplier : Rat := 2
  initialStop : Rat := 15/1000
  trailingPercent : Rat := 1/100
  activationPercent : Rat := 1/100
deriving Repr, DecidableEq

/-- `StopLossManager._calculate_percentage_stop`. -/
def calculatePercentageStop (cfg : StopConfig) (entryPrice : Rat) (side : String) : Rat :=
  if side = "long" then entryPrice * (1 - cfg.value)
  else entryPrice * (1 + cfg.value)

/-- The per-row true range of `calculate_atr`
(`src/src/utils/indicators.py`): rows after the first take
`max(high-low, |high-prevClose|, |low-prevClose|)`. -/
def trueRangesFrom (prev : Bar) : List Bar → List Rat
  | [] => []
  | b :: bs =>
      max (b.high - b.low) (max |b.high - prev.close| |b.low - prev.close|)
        :: trueRangesFrom b bs

/-- True-range series of `calculate_atr`; on the first row the shifted
close is NaN and the pandas row-max skips it, leaving `high - low`. -/
def trueRanges : List Bar → List Rat
  | [] => []
  | b :: bs => (b.high - b.low) :: trueRangesFrom b bs

/-- Last entry of `calculate_atr(high, low, close, period)`: the rolling
mean of the final `period` true ranges; `none` embeds the NaN produced
when fewer than `period` rows exist. -/
def atrLast (bars : List Bar) (period : Nat) : Option Rat :=
  let tr := trueRanges bars
  if period = 0 ∨ tr.length < period then none
  else some ((tr.drop (tr.length - period)).sum / (period : Rat))

/-- `StopLossManager._calculate_atr_stop`: `none` market data or fewer
than 20 rows falls back to the percentage stop, as does a NaN ATR. -/
def calculateAtrStop (cfg : StopConfig) (entryPrice : Rat) (side : String)
    (marketData : Option (List Bar)) : Rat :=
  match marketData with
  | none => calculatePercentageStop cfg entryPrice side
  | some bars =>
    if bars.length < 20 then calculatePercentageStop cfg entryPrice side
    else
      match atrLast bars cfg.atrPeriod with
      | none => calculatePercentageStop cfg entryPrice side
      | some currentAtr =>
        if side = "long" then entryPrice - currentAtr * cfg.multiplier
        else entryPrice + currentAtr * cfg.multiplier

/-- `StopLossManager._calculate_trailing_stop` (the initial stop of a
trailing configuration). -/
def calculateTrailingStopInitial (cfg : StopConfig) (entryPrice : Rat) (side : String) : Rat :=
  if side = "long" then entryPrice * (1 - cfg.initialStop)
  else entryPrice * (1 + cfg.initialStop)

/-- `StopLossManager.calculate_stop_loss` dispatch on the configured
type; unknown types fall back to percentage. -/
def calculateStopLoss (cfg : StopConfig) (entryPrice : Rat) (side : String)
    (marketData : Option (List Bar)) : Rat :=
  if cfg.stopType = "percentage" then calculatePercentageStop cfg entryPrice side
  else if cfg.stopType = "atr" then calculateAtrStop cfg entryPrice side marketData
  else if cfg.stopType = "trailing" then calculateTrailingStopInitial cfg entryPrice side
  else calculatePercentageStop cfg entryPrice side

/-- `StopLossManager.update_trailing_stop`: once the unrealized profit
reaches `activation_percent` the stop is recomputed from the current
price and accepted only through `max` (long) / `min` (short). -/
def updateTrailingStop (cfg : StopConfig) (currentPrice currentStop : Rat)
    (side : String) (entryPrice : Rat) : Rat :=
  if cfg.stopType ≠ "trailing" then currentStop
  else if side = "long" then
    if cfg.activationPercent ≤ (currentPrice - entryPrice) / entryPrice then
      max currentStop (currentPrice * (1 - cfg.trailingPercent))
    else currentStop
  else
    if cfg.activationPercent ≤ (entryPrice - currentPrice) / entryPrice then
      min currentStop (currentPrice * (1 + cfg.trailingPercent))
    else currentStop

/-- An entry of `StopLossManager.active_stops`. -/
structure StopInfo where
  price : Rat
  entryPrice : Rat
  side : String
  stopType : String
deriving Repr, DecidableEq

/-- `StopLossManager.check_stop_hit` for one symbol; an absent entry
returns `False`. -/
def checkStopHit (activeStop : Option StopInfo) (currentPrice : Rat) : Bool :=
  match activeStop with
  | none => false
  | some info =>
    if info.side = "long" then currentPrice ≤ info.price
    else info.price ≤ currentPrice

/-- `StopLossManager.update_stop_loss` for one symbol: trailing entries
are re-priced through `update_trailing_stop`, others are untouched. -/
def updateStopLoss (cfg : StopConfig) (activeStop : Option StopInfo)
    (currentPrice : Rat) : Option StopInfo :=
  match activeStop with
  | none => none
  | some info =>
    if info.stopType = "trailing" then
      some { info with
        price := updateTrailingStop cfg currentPrice info.price info.side info.entryPrice }
    else some info

/-! ## Take-profit manager (`src/src/risk_management/take_profit.py`) -/

/-- Configuration of `TakeProfitManager`.  A `partial_exits` entry is a
dict with optional `ratio` and `level` keys, embedded as a pair of
options; defaults follow `config.get`. -/
structure TpConfig where
  tpType : String := "risk_reward"
  ratio : Rat := 2
  partialExits : List (Option Rat × Option Rat) := []
deriving Repr, DecidableEq

/-- `TakeProfitManager._calculate_risk_reward_tp`: targets at multiples
of the risk distance `|entry − stop|`; each `partial_exits` entry takes
`ratio` (defaulting to the configured ratio) and `level` (the exit
fraction, defaulting to `1.0`); with no partial exits, a single full
target at the configured ratio. -/
def calculateRiskRewardTp (cfg : TpConfig) (entryPrice stopLoss : Rat)
    (side : String) : List (Rat × Rat) :=
  let risk := |entryPrice - stopLoss|
  if cfg.partialExits ≠ [] then
    cfg.partialExits.map (fun e =>
      let exitRatio := e.1.getD cfg.ratio
      let exitSize := e.2.getD 1
      (if side = "long" then entryPrice + risk * exitRatio
       else entryPrice - risk * exitRatio, exitSize))
  else
    [(if side = "long" then entryPrice + risk * cfg.ratio
      else entryPrice - risk * cfg.ratio, 1)]

/-- An entry of `TakeProfitManager.active_targets`: the `(price, size)`
target list plus one filled flag per level. -/
structure TpInfo where
  targets : List (Rat × Rat)
  entryPrice : Rat
  side : String
  filled : List Bool
deriving Repr, DecidableEq

/-- Whether `current_price` has crossed a take-profit level: price at or
above the target for a long, at or below for a short (the comparisons of
`check_take_profit_hit`). -/
def tpCrossed (side : String) (currentPrice tpPrice : Rat) : Bool :=
  if side = "long" then tpPrice ≤ currentPrice else currentPrice ≤ tpPrice

/-- The scanning loop of `TakeProfitManager.check_take_profit_hit`:
walk the target and filled lists in stored order, fire the first
unfilled level the price has crossed, set exactly its flag, and report
its enumerate index. -/
def tpScan (side : String) (currentPrice : Rat) :
    List (Rat × Rat) → List Bool → Option (Nat × Rat × Rat) × List Bool
  | [], fs => (none, fs)
  | _ :: _, [] => (none, [])
  | (tpPrice, exitSize) :: ts, f :: fs =>
    if f = false ∧ tpCrossed side currentPrice tpPrice = true then
      (some (0, tpPrice, exitSize), true :: fs)
    else
      let r := tpScan side currentPrice ts fs
      (r.1.map (fun hit => (hit.1 + 1, hit.2)), f :: r.2)

/-- `TakeProfitManager.check_take_profit_hit` for one symbol: returns the
fired `(level_index, tp_price, exit_size)` (or `none`) together with the
updated manager entry (the source mutates `filled[i]` before
returning). -/
def checkTakeProfitHit (activeTp : Option TpInfo) (currentPrice : Rat) :
    Option (Nat × Rat × Rat) × Option TpInfo :=
  match activeTp with
  | none => (none, none)
  | some info =>
    let r := tpScan info.side currentPrice info.targets info.filled
    (r.1, some { info with filled := r.2 })

/-- `TakeProfitManager.all_targets_filled`; an absent entry counts as all
filled. -/
def allTargetsFilled (activeTp : Option TpInfo) : Bool :=
  match activeTp with
  | none => true
  | some info => info.filled.all (fun b => b)

/-! ## Position sizer (`src/src/risk_management/position_sizer.py`) -/

/-- Configuration of `PositionSizer`; defaults follow `config.get`. -/
structure SizerConfig where
  method : String := "fixed_risk"
  riskPerTrade : Rat := 2/100
  maxPositions : Nat := 4
  kellyFraction : Rat := 1/4
deriving Repr, DecidableEq

/-- `PositionSizer._fixed_risk`: risk `capital*risk_per_trade` over the
price risk, leveraged, capped at `capital*leverage/entry_price`; zero
price risk returns size 0. -/
def fixedRisk (cfg : SizerConfig) (capital entryPrice stopLoss leverage : Rat) : Rat :=
  let riskAmount := capital * cfg.riskPerTrade
  let priceRisk := |entryPrice - stopLoss|
  if priceRisk = 0 then 0
  else
    let positionSize := riskAmount / priceRisk * leverage
    min positionSize (capital * leverage / entryPrice)

/-- The risk fraction `_kelly_criterion` actually applies (lines
133–145 of the source): the raw Kelly percentage times
`kelly_fraction`, clamped through `max(0, min(·, 0.1))`, and replaced by
the `0.01` minimum only when the clamped value is `≤ 0`. -/
def kellyAppliedPercent (cfg : SizerConfig) (winRate avgWin avgLoss : Rat) : Rat :=
  let winLossRatio := |avgWin / avgLoss|
  let kellyPercent := winRate - (1 - winRate) / winLossRatio
  let capped := max 0 (min (kellyPercent * cfg.kellyFraction) (1/10))
  if capped ≤ 0 then 1/100 else capped

/-- `PositionSizer._kelly_criterion`: missing or invalid statistics fall
back to `_fixed_risk`; otherwise the applied Kelly fraction of capital
is risked over the price risk, leveraged and capped like fixed risk. -/
def kellyCriterion (cfg : SizerConfig) (capital entryPrice stopLoss leverage : Rat)
    (winRate avgWin avgLoss : Option Rat) : Rat :=
  match winRate, avgWin, avgLoss with
  | some w, some aw, some al =>
    if w ≤ 0 ∨ 1 ≤ w then fixedRisk cfg capital entryPrice stopLoss leverage
    else if al = 0 then fixedRisk cfg capital entryPrice stopLoss leverage
    else
      let kellyPercent := kellyAppliedPercent cfg w aw al
      let riskAmount := capital * kellyPercent
      let priceRisk := |entryPrice - stopLoss|
      if priceRisk = 0 then 0
      else min (riskAmount / priceRisk * leverage) (capital * leverage / entryPrice)
  | _, _, _ => fixedRisk cfg capital entryPrice stopLoss leverage

/-- `PositionSizer.calculate_position_size` dispatch; unknown methods
fall back to fixed risk. -/
def calculatePositionSize (cfg : SizerConfig) (capital entryPrice stopLoss leverage : Rat)
    (winRate avgWin avgLoss : Option Rat) : Rat :=
  if cfg.method = "kelly_criterion" then
    kellyCriterion cfg capital entryPrice stopLoss leverage winRate avgWin avgLoss
  else if cfg.method = "fixed_risk" then
    fixedRisk cfg capital entryPrice stopLoss leverage
  else fixedRisk cfg capital entryPrice stopLoss leverage

/-- `PositionSizer.validate_position_size`: below the minimum order size
returns 0; a truthy maximum caps the size; a size whose required margin
exceeds capital is capped at `capital*leverage/entry_price`. -/
def validatePositionSize (positionSize entryPrice capital leverage minOrderSize : Rat)
    (maxOrderSize : Option Rat) : Rat :=
  if positionSize < minOrderSize then 0
  else
    let s1 := match maxOrderSize with
      | some m => if m ≠ 0 ∧ m < positionSize then m else positionSize
      | none => positionSize
    if capital < s1 * entryPrice / leverage then capital * leverage / entryPrice
    else s1

/-! ## Trade lifecycle (`src/src/backtesting/backtest_engine.py`, class `Trade`) -/

/-- The `Trade` record: lifecycle state of one simulated position. -/
structure Trade where
  symbol : String
  side : String
  entryTime : Int
  entryPrice : Rat
  size : Rat
  stopLoss : Rat
  takeProfit : List (Rat × Rat)
  exitTime : Option Int := none
  exitPrice : Option Rat := none
  pnl : Rat := 0
  pnlPercent : Rat := 0
  exitReason : String := ""
  remainingSize : Rat
deriving Repr, DecidableEq

/-- `Trade.close`: record the exit, add the per-exit P&L of the closed
quantity, subtract it from the remaining size, and recompute the
percentage on the entry value of the original size. -/
def Trade.close (t : Trade) (exitTime : Int) (exitPrice sz : Rat) (reason : String) : Trade :=
  let pnlDelta :=
    if t.side = "long" then (exitPrice - t.entryPrice) * sz
    else (t.entryPrice - exitPrice) * sz
  let newPnl := t.pnl + pnlDelta
  { t with
    exitTime := some exitTime
    exitPrice := some exitPrice
    exitReason := reason
    pnl := newPnl
    remainingSize := t.remainingSize - sz
    pnlPercent := newPnl / (t.entryPrice * t.size) * 100 }

/-- `Trade.is_closed`: fully closed up to the `0.0001` float slack. -/
def Trade.isClosed (t : Trade) : Bool :=
  t.remainingSize ≤ 1/10000

/-- One recorded exit operation applied to a `Trade` (the argument list
of `Trade.close`). -/
structure CloseOp where
  time : Int
  price : Rat
  sz : Rat
  reason : String
deriving Repr, DecidableEq

/-- Fold a sequence of exit operations over a trade via `Trade.close`. -/
def applyCloses (t : Trade) (ops : List CloseOp) : Trade :=
  ops.foldl (fun acc o => acc.close o.time o.price o.sz o.reason) t

/-! ## Backtest engine (`src/src/backtesting/backtest_engine.py`, class `BacktestEngine`) -/

/-- Run-wide execution constants of `BacktestEngine.__init__`. -/
structure EngineCfg where
  commission : Rat := 6/10000
  slippage : Rat := 5/10000
  leverage : Rat := 1
deriving Repr, DecidableEq

/-- Single-symbol engine state: capital, the open-trade slot
(`open_trades`), the closed ledger (`trades`), the two risk managers'
per-symbol entries, and the equity curve. -/
structure EngineState where
  capital : Rat
  openTrade : Option Trade
  closedTrades : List Trade
  activeStop : Option StopInfo
  activeTp : Option TpInfo
  equityCurve : List Rat
deriving Repr, DecidableEq

/-- `BacktestEngine._close_position`: slip the exit price against the
trader, close the full remaining size, debit a commission on the
notional of the ORIGINAL size (`trade.size * exit_price`), credit the
trade's accumulated P&L, and move the trade to the closed ledger. -/
def closePosition (cfg : EngineCfg) (exitPrice : Rat) (timestamp : Int)
    (reason : String) (s : EngineState) : EngineState :=
  match s.openTrade with
  | none => s
  | some trade =>
    let slippedPrice :=
      if trade.side = "long" then exitPrice * (1 - cfg.slippage)
      else exitPrice * (1 + cfg.slippage)
    let closedTrade := trade.close timestamp slippedPrice trade.remainingSize reason
    let proceeds := trade.size * slippedPrice
    let commissionCost := proceeds * cfg.commission
    { s with
      capital := s.capital + closedTrade.pnl - commissionCost
      openTrade := none
      closedTrades := s.closedTrades ++ [closedTrade] }

/-- `BacktestEngine._partial_close`: slip the exit price, close `sz` of
the trade, credit the proceeds net of a commission on the partial
notional plus a prorated share of the trade's accumulated P&L; the trade
stays in the open slot. -/
def partClose (cfg : EngineCfg) (exitPrice : Rat) (timestamp : Int)
    (sz : Rat) (reason : String) (s : EngineState) : EngineState :=
  match s.openTrade with
  | none => s
  | some trade =>
    let slippedPrice :=
      if trade.side = "long" then exitPrice * (1 - cfg.slippage)
      else exitPrice * (1 + cfg.slippage)
    let t2 := trade.close timestamp slippedPrice sz reason
    let proceeds := sz * slippedPrice
    let commissionCost := proceeds * cfg.commission
    { s with
      capital := s.capital + proceeds - commissionCost + t2.pnl / t2.size * sz
      openTrade := some t2 }

/-- The take-profit half of `_check_exits` (lines 220–234): refresh the
trailing stop, consult the take-profit manager (which marks the fired
flag), then either do nothing, close fully when every level is filled
(`take_profit_final`), or close `remaining_size * exit_size`
(`take_profit_<n>`). -/
def checkExitsTp (cfg : EngineCfg) (currentPrice : Rat) (timestamp : Int)
    (trade : Trade) (s1 : EngineState) : EngineState :=
  let r := checkTakeProfitHit s1.activeTp currentPrice
  let s2 := { s1 with activeTp := r.2 }
  match r.1 with
  | none => s2
  | some (levelIdx, tpPrice, exitSize) =>
    let partSize := trade.remainingSize * exitSize
    if allTargetsFilled s2.activeTp then
      closePosition cfg tpPrice timestamp "take_profit_final" s2
    else
      partClose cfg tpPrice timestamp partSize ("take_profit_" ++ toString levelIdx) s2

/-- `BacktestEngine._check_exits`: the stop-loss check runs first and,
when hit, closes the whole position at the trade's stored stop price and
returns; only otherwise does the take-profit half run. -/
def checkExits (cfg : EngineCfg) (slCfg : StopConfig) (currentPrice : Rat)
    (timestamp : Int) (s : EngineState) : EngineState :=
  match s.openTrade with
  | none => s
  | some trade =>
    if checkStopHit s.activeStop currentPrice then
      closePosition cfg trade.stopLoss timestamp "stop_loss" s
    else
      checkExitsTp cfg currentPrice timestamp trade
        { s with activeStop := updateStopLoss slCfg s.activeStop currentPrice }

/-! ## Performance metrics (`src/src/backtesting/performance_metrics.py`) -/

/-- Gross profit of the closed-trade ledger: the sum of positive trade
P&Ls (`profit_factor`, first line). -/
def grossProfit (trades : List Trade) : Rat :=
  ((trades.map Trade.pnl).filter (fun p => 0 < p)).sum

/-- Gross loss of the closed-trade ledger: the absolute value of the sum
of negative trade P&Ls (`profit_factor`, second line). -/
def grossLoss (trades : List Trade) : Rat :=
  |((trades.map Trade.pnl).filter (fun p => p < 0)).sum|

/-- `PerformanceMetrics.profit_factor`: gross profit over gross loss;
`⊤` embeds the float `inf` returned when the loss is zero but the profit
is positive; both zero yields 0. -/
def profitFactor (trades : List Trade) : WithTop Rat :=
  if grossLoss trades = 0 then
    (if grossProfit trades = 0 then 0 else ⊤)
  else ((grossProfit trades / grossLoss trades : Rat) : WithTop Rat)

/-! ## The bar loop (`BacktestEngine.run` / `_enter_position`) -/

/-- The `SignalType` enum of `src/src/strategies/base_strategy.py`. -/
inductive SignalType where
  | BUY
  | SELL
  | HOLD
  | CLOSE_LONG
  | CLOSE_SHORT
deriving Repr, DecidableEq

/-- A strategy adapter: `generate_signal` applied to the bars the engine
hands it.  `Except` embeds a Python exception escaping the call — the
engine wraps the call in no handler. -/
def Strategy : Type := List Bar → Except String SignalType

/-- A pluggable take-profit level calculation
(`TakeProfitManager.calculate_take_profit`); the run loop is proved for
every such calculation, `calculateRiskRewardTp` being the default. -/
def TpCalc : Type := Rat → Rat → String → Option (List Bar) → List (Rat × Rat)

/-- `BacktestEngine._calculate_equity`: capital plus the unrealized P&L
of the open trade marked at bar `i`'s close (skipped when the index is
out of range, as in the source's bounds guard). -/
def calcEquity (bars : List Bar) (i : Nat) (s : EngineState) : Rat :=
  match s.openTrade with
  | none => s.capital
  | some t =>
    match bars.get? i with
    | none => s.capital
    | some b =>
      s.capital +
        (if t.side = "long" then (b.close - t.entryPrice) * t.remainingSize
         else (t.entryPrice - b.close) * t.remainingSize)

/-- `BacktestEngine._enter_position`: slip the last close against the
trader, compute the stop, size the position (no statistics are passed,
so Kelly falls back), validate it, and on a positive size debit the
entry commission and create the trade.  The source computes stop and
targets from the same history prefix it got the signal from. -/
def enterPosition (cfg : EngineCfg) (slCfg : StopConfig) (szCfg : SizerConfig)
    (tpCalc : TpCalc) (signal : SignalType) (data : List Bar) (timestamp : Int)
    (s : EngineState) : EngineState :=
  let currentPrice := ((data.getLast?).map Bar.close).getD 0
  let side := if signal = SignalType.BUY then "long" else "short"
  let entryPrice :=
    if side = "long" then currentPrice * (1 + cfg.slippage)
    else currentPrice * (1 - cfg.slippage)
  let stopLoss := calculateStopLoss slCfg entryPrice side (some data)
  let rawSize := calculatePositionSize szCfg s.capital entryPrice stopLoss cfg.leverage
    none none none
  let positionSize := validatePositionSize rawSize entryPrice s.capital cfg.leverage
    (1/1000) none
  if positionSize ≤ 0 then s
  else
    let tpLevels := tpCalc entryPrice stopLoss side (some data)
    let commissionCost := positionSize * entryPrice * cfg.commission
    { s with
      capital := s.capital - commissionCost
      openTrade := some
        { symbol := "SYM"
          side := side
          entryTime := timestamp
          entryPrice := entryPrice
          size := positionSize
          stopLoss := stopLoss
          takeProfit := tpLevels
          remainingSize := positionSize } }

/-- The body of `BacktestEngine.run`'s `for i, timestamp in
enumerate(timestamps)` loop over one symbol: append the mark-to-market
equity, run the exit checks at the bar's close, and — only from bar
index 100 on (`if i < 100: continue`) — hand the history slice
`df.iloc[:i+1]` to the strategy; `BUY`/`SELL` with no open trade enters
a position.  A strategy exception propagates (there is no `try`). -/
def runBars (cfg : EngineCfg) (slCfg : StopConfig) (szCfg : SizerConfig)
    (tpCalc : TpCalc) (strategy : Strategy) (allBars : List Bar) :
    List Bar → Nat → EngineState → Except String EngineState
  | [], _, s => Except.ok s
  | b :: rest, i, s =>
    let s1 := { s with equityCurve := s.equityCurve ++ [calcEquity allBars i s] }
    let s2 := checkExits cfg slCfg b.close b.timestamp s1
    if i < 100 then runBars cfg slCfg szCfg tpCalc strategy allBars rest (i + 1) s2
    else
      match strategy (allBars.take (i + 1)) with
      | Except.error e => Except.error e
      | Except.ok sig =>
        let s3 :=
          if (sig = SignalType.BUY ∨ sig = SignalType.SELL) ∧ s2.openTrade = none then
            enterPosition cfg slCfg szCfg tpCalc sig (allBars.take (i + 1)) b.timestamp s2
          else s2
        runBars cfg slCfg szCfg tpCalc strategy allBars rest (i + 1) s3

/-- `BacktestEngine.run` for one symbol: fresh manager state (the engine
never registers stops or targets with the managers), the bar loop, then
a forced close of any surviving trade at the last close with reason
`backtest_end`. -/
def run (cfg : EngineCfg) (slCfg : StopConfig) (szCfg : SizerConfig)
    (tpCalc : TpCalc) (strategy : Strategy) (initialCapital : Rat)
    (bars : List Bar) : Except String EngineState :=
  let s0 : EngineState :=
    { capital := initialCapital
      openTrade := none
      closedTrades := []
      activeStop := none
      activeTp := none
      equityCurve := [initialCapital] }
  match runBars cfg slCfg szCfg tpCalc strategy bars bars 0 s0 with
  | Except.error e => Except.error e
  | Except.ok s =>
    match bars.getLast? with
    | none => Except.ok s
    | some lastBar =>
      Except.ok (closePosition cfg lastBar.close lastBar.timestamp "backtest_end" s)

/-- The signal the engine computes at bar index `i` (`run`, lines
134–138): the strategy applied to the history slice `df.iloc[:i+1]`,
which INCLUDES the decision bar itself. -/
def signalAt (strategy : Strategy) (bars : List Bar) (i : Nat) :
    Except String SignalType :=
  strategy (bars.take (i + 1))

/-! ## Derived notions and concrete instances used by the theorems -/

/-- The slipped exit price of `_close_position` / `_partial_close`:
directional slippage against the trader. -/
def slipExit (cfg : EngineCfg) (side : String) (exitPrice : Rat) : Rat :=
  if side = "long" then exitPrice * (1 - cfg.slippage)
  else exitPrice * (1 + cfg.slippage)

/-- The exit fractions of the registered take-profit levels. -/
def tpFracs (activeTp : Option TpInfo) : List Rat :=
  match activeTp with
  | none => []
  | some info => info.targets.map Prod.snd

/-- `calculateRiskRewardTp` packaged as a pluggable `TpCalc`. -/
def riskRewardTpCalc (cfg : TpConfig) : TpCalc :=
  fun entryPrice stopLoss side _ => calculateRiskRewardTp cfg entryPrice stopLoss side

/-- A bar whose four prices all equal `c`. -/
def mkBar (t : Int) (c : Rat) : Bar :=
  { timestamp := t, opn := c, high := c, low := c, close := c, volume := 1 }

/-- A fully closed ledger trade with the given realized P&L. -/
def sampleClosedTrade (p : Rat) : Trade :=
  { symbol := "BTCUSDT", side := "long", entryTime := 0, entryPrice := 50000
    size := 1, stopLoss := 49000, takeProfit := [], pnl := p
    exitReason := "stop_loss", remainingSize := 0 }

/-- A Kelly sizing configuration with the source defaults
(`kelly_fraction = 0.25`). -/
def kellyQuarterCfg : SizerConfig := { method := "kelly_criterion" }

/-- A trailing-stop configuration with the source defaults. -/
def trailCfg : StopConfig := { stopType := "trailing" }

/-- A flat 110/90/100 bar for ATR scenarios (true range 20). -/
def cexBar : Bar :=
  { timestamp := 0, opn := 100, high := 110, low := 90, close := 100, volume := 1 }

/-- Ten bars of prior history — enough for an ATR(10), fewer than the
engine's hard-coded 20. -/
def cexBars10 : List Bar :=
  [cexBar, cexBar, cexBar, cexBar, cexBar, cexBar, cexBar, cexBar, cexBar, cexBar]

/-- Twenty bars of prior history. -/
def cexBars20 : List Bar :=
  [cexBar, cexBar, cexBar, cexBar, cexBar, cexBar, cexBar, cexBar, cexBar, cexBar,
   cexBar, cexBar, cexBar, cexBar, cexBar, cexBar, cexBar, cexBar, cexBar, cexBar]

/-- An ATR stop configuration with period 10. -/
def atrCfg10 : StopConfig := { stopType := "atr", atrPeriod := 10 }

/-- An ATR stop configuration with period 20. -/
def atrCfg20 : StopConfig := { stopType := "atr", atrPeriod := 20 }

/-- Execution costs switched off, for exact-arithmetic scenarios. -/
def zeroSlipCfg : EngineCfg := { commission := 0, slippage := 0 }

/-- A stop-loss configuration left entirely at the source defaults. -/
def defaultStopCfg : StopConfig := {}

/-- A risk/reward take-profit configuration whose first `partial_exits`
entry has no `level` key — its exit fraction therefore defaults to
`1.0` although a second level follows. -/
def rrFullFirstCfg : TpConfig :=
  { partialExits := [(some 1, none), (some 2, some (1/2))] }

/-- A long trade whose stored stop (100) sits above a take-profit level
(90), so one close price can satisfy both exit conditions. -/
def c1Trade : Trade :=
  { symbol := "BTCUSDT", side := "long", entryTime := 0, entryPrice := 98
    size := 2, stopLoss := 100, takeProfit := [(90, 1/2)], remainingSize := 2 }

/-- Engine state holding `c1Trade` with both managers registered. -/
def c1State : EngineState :=
  { capital := 10000
    openTrade := some c1Trade
    closedTrades := []
    activeStop := some { price := 100, entryPrice := 98, side := "long", stopType := "percentage" }
    activeTp := some { targets := [(90, 1/2)], entryPrice := 98, side := "long", filled := [false] }
    equityCurve := [] }

/-- A long trade with two-level laddered targets, half out at each. -/
def c3wTrade : Trade :=
  { symbol := "BTCUSDT", side := "long", entryTime := 0, entryPrice := 100
    size := 2, stopLoss := 90, takeProfit := [(110, 1/2), (120, 1/2)], remainingSize := 2 }

/-- Engine state holding `c3wTrade`. -/
def c3wState : EngineState :=
  { capital := 1000
    openTrade := some c3wTrade
    closedTrades := []
    activeStop := some { price := 90, entryPrice := 100, side := "long", stopType := "percentage" }
    activeTp := some { targets := [(110, 1/2), (120, 1/2)], entryPrice := 100, side := "long", filled := [false, false] }
    equityCurve := [] }

/-- A long trade whose FIRST take-profit level carries exit fraction 1
(the `partial_exits` default when an entry has no `level` key) while a
second level is still unfilled. -/
def c3xTrade : Trade :=
  { symbol := "BTCUSDT", side := "long", entryTime := 0, entryPrice := 100
    size := 2, stopLoss := 90, takeProfit := [(110, 1), (120, 1/2)], remainingSize := 2 }

/-- Engine state holding `c3xTrade`. -/
def c3xState : EngineState :=
  { capital := 1000
    openTrade := some c3xTrade
    closedTrades := []
    activeStop := some { price := 90, entryPrice := 100, side := "long", stopType := "percentage" }
    activeTp := some { targets := [(110, 1), (120, 1/2)], entryPrice := 100, side := "long", filled := [false, false] }
    equityCurve := [] }

/-- Target list stored out of nearest-first order: level 0 at 110 is
FARTHER from the entry (100) than level 1 at 105. -/
def c9Info : TpInfo :=
  { targets := [(110, 1/2), (105, 1/4)], entryPrice := 100, side := "long", filled := [false, false] }

/-- A deterministic strategy that keys off the close of the last bar it
is shown — the engine shows it the decision bar itself. -/
def lastCloseStrategy : Strategy :=
  fun h => Except.ok
    (if 100 ≤ ((h.getLast?).map Bar.close).getD 0 then SignalType.BUY else SignalType.HOLD)

/-- Three bars; the series `dfA` and `dfB` agree strictly before index 2
and differ at index 2. -/
def dfA : List Bar := [mkBar 0 50, mkBar 1 50, mkBar 2 50]

/-- Same first two bars as `dfA`, different decision bar. -/
def dfB : List Bar := [mkBar 0 50, mkBar 1 50, mkBar 2 150]

/-- A strategy adapter that raises on every call. -/
def errStrategy : Strategy := fun _ => Except.error "boom"

/-- A second always-raising adapter. -/
def errStrategy2 : Strategy := fun _ => Except.error "strategy failure"

/-- 101 bars: exactly enough for the warm-up to expire once. -/
def flatBars : List Bar := List.replicate 101 (mkBar 0 100)

/-- 120 bars of history. -/
def flatBars120 : List Bar := List.replicate 120 (mkBar 1 50)

/-! ## Theorems -/

/-- Claim C8: for every closed-trade ledger, `profit_factor` is gross
profit over gross loss, with degenerate cases resolved to sentinels and
never raising: both gross sums zero gives 0, zero loss with positive
profit gives `+∞` (`⊤`), and a nonzero loss gives the exact quotient. -/
theorem profit_factor_degenerate_cases (trades : List Trade) :
    (grossProfit trades = 0 → grossLoss trades = 0 → profitFactor trades = 0)
  ∧ (grossLoss trades = 0 → 0 < grossProfit trades → profitFactor trades = ⊤)
  ∧ (grossLoss trades ≠ 0 →
      profitFactor trades
        = ((grossProfit trades / grossLoss trades : Rat) : WithTop Rat)) := by
  refine ⟨?_, ?_, ?_⟩
  · intro hp hl
    simp [profitFactor, hp, hl]
  · intro hl hp
    simp [profitFactor, hl, hp.ne']
  · intro hl
    simp [profitFactor, hl]

/-- Evaluation: the one-trade ledger with P&L 500 has gross profit 500. -/
lemma grossProfit_single : grossProfit [sampleClosedTrade 500] = 500 := by
  norm_num [grossProfit, sampleClosedTrade]

/-- Evaluation: the one-trade ledger with P&L 500 has gross loss 0. -/
lemma grossLoss_single : grossLoss [sampleClosedTrade 500] = 0 := by
  norm_num [grossLoss, sampleClosedTrade]

/-- Witness for C8: a one-trade ledger with P&L 500 has zero gross loss
and positive gross profit, and its profit factor is `+∞`. -/
theorem profit_factor_degenerate_cases_witness :
    grossLoss [sampleClosedTrade 500] = 0
  ∧ 0 < grossProfit [sampleClosedTrade 500]
  ∧ profitFactor [sampleClosedTrade 500] = ⊤ :=
  ⟨grossLoss_single, by rw [grossProfit_single]; norm_num,
    (profit_factor_degenerate_cases [sampleClosedTrade 500]).2.1 grossLoss_single
      (by rw [grossProfit_single]; norm_num)⟩

/-- Unfolding of `kellyAppliedPercent` used by the C4 proofs. -/
lemma kellyAppliedPercent_eq (cfg : SizerConfig) (w aw al : Rat) :
    kellyAppliedPercent cfg w aw al
      = (if max 0 (min ((w - (1 - w) / |aw / al|) * cfg.kellyFraction) (1/10)) ≤ 0
         then 1/100
         else max 0 (min ((w - (1 - w) / |aw / al|) * cfg.kellyFraction) (1/10))) := rfl

/-- Counterexample to claim C4 as stated: with valid statistics
(win rate 1/2, win/loss ratio 51/50) the fractional Kelly value is
1/408 ≈ 0.245%, strictly below the claimed 0.01 floor, and the sizing
call risks exactly that sub-1% fraction of capital. -/
theorem kelly_below_min_clamp_cex :
    kellyAppliedPercent kellyQuarterCfg (1/2) (51/50) 1 = 1/408
  ∧ (1/408 : Rat) < 1/100
  ∧ kellyCriterion kellyQuarterCfg 10000 100 99 1 (some (1/2)) (some (51/50)) (some 1)
      = 1250/51
  ∧ (1250/51 : Rat) < 10000 * (1/100) / |100 - (99 : Rat)| * 1 := by
  have habs : |(51:Rat)/50/1| = 51/50 := by norm_num
  have h1 : kellyAppliedPercent kellyQuarterCfg (1/2) (51/50) 1 = 1/408 := by
    rw [kellyAppliedPercent, habs]
    norm_num [kellyQuarterCfg]
  have habs2 : |(100:Rat) - 99| = 1 := by norm_num
  have h2 : kellyCriterion kellyQuarterCfg 10000 100 99 1
      (some (1/2)) (some (51/50)) (some 1) = 1250/51 := by
    simp only [kellyCriterion, h1, habs2]
    norm_num
  refine ⟨h1, by norm_num, h2, by rw [habs2]; norm_num⟩

/-- Claim C4 (amended): for valid statistics the applied Kelly risk
fraction is `raw*kelly_fraction` clamped ABOVE at 0.10; the 0.01 minimum
replaces it only when the product is ≤ 0, so the applied fraction always
lies in (0, 0.10] but positive values below 0.01 pass through unfloored;
the sizing call risks `capital*applied` over the price risk, leveraged
and capped at `capital*leverage/entry`. -/
theorem kelly_fraction_clamp (cfg : SizerConfig) (w aw al : Rat)
    (hw0 : 0 < w) (hw1 : w < 1) (hal : al ≠ 0) (haw : aw ≠ 0) :
    (0 < kellyAppliedPercent cfg w aw al ∧ kellyAppliedPercent cfg w aw al ≤ 1/10)
  ∧ ((w - (1 - w) / |aw / al|) * cfg.kellyFraction ≤ 0 →
      kellyAppliedPercent cfg w aw al = 1/100)
  ∧ (0 < (w - (1 - w) / |aw / al|) * cfg.kellyFraction →
      kellyAppliedPercent cfg w aw al
        = min ((w - (1 - w) / |aw / al|) * cfg.kellyFraction) (1/10))
  ∧ (∀ capital stopLoss leverage entryPrice : Rat, |entryPrice - stopLoss| ≠ 0 →
      kellyCriterion cfg capital entryPrice stopLoss leverage (some w) (some aw) (some al)
        = min (capital * kellyAppliedPercent cfg w aw al / |entryPrice - stopLoss| * leverage)
            (capital * leverage / entryPrice)) := by
  set x := (w - (1 - w) / |aw / al|) * cfg.kellyFraction with hx
  refine ⟨?_, ?_, ?_, ?_⟩
  · rw [kellyAppliedPercent_eq, ← hx]
    by_cases hc : max 0 (min x (1/10)) ≤ 0
    · rw [if_pos hc]
      norm_num
    · rw [if_neg hc]
      push_neg at hc
      exact ⟨hc, max_le (by norm_num) (min_le_right _ _)⟩
  · intro hneg
    rw [kellyAppliedPercent_eq, ← hx]
    have h1 : min x (1/10) = x := min_eq_left (hneg.trans (by norm_num))
    have h2 : max 0 x = 0 := max_eq_left hneg
    rw [h1, h2, if_pos le_rfl]
  · intro hpos
    rw [kellyAppliedPercent_eq, ← hx]
    have h0 : (0 : Rat) < min x (1/10) := lt_min hpos (by norm_num)
    have h1 : max 0 (min x (1/10)) = min x (1/10) := max_eq_right h0.le
    rw [h1, if_neg (not_le.mpr h0)]
  · intro capital stopLoss leverage entryPrice hpr
    have hvalid : ¬(w ≤ 0 ∨ 1 ≤ w) := by
      push_neg
      exact ⟨hw0, hw1⟩
    simp only [kellyCriterion, if_neg hvalid, if_neg hal, if_neg hpr]

/-- Witness for C4 (amended): with win rate 3/5 and win/loss ratio 2 the
raw Kelly is 2/5, the quartered value 1/10 is within the cap, and the
sizing call risks exactly 10% of capital. -/
theorem kelly_fraction_clamp_witness :
    (0 : Rat) < 3/5 ∧ (3/5 : Rat) < 1 ∧ (2 : Rat) ≠ 0 ∧ (4 : Rat) ≠ 0
  ∧ (0 < kellyAppliedPercent kellyQuarterCfg (3/5) 4 2
      ∧ kellyAppliedPercent kellyQuarterCfg (3/5) 4 2 ≤ 1/10) :=
  ⟨by norm_num, by norm_num, by norm_num, by norm_num,
    (kelly_fraction_clamp kellyQuarterCfg (3/5) 4 2
      (by norm_num) (by norm_num) (by norm_num) (by norm_num)).1⟩

/-- Evaluation: every true range of the flat 110/90/100 history is 20. -/
lemma trueRanges_cexBars10 :
    trueRanges cexBars10 = [20, 20, 20, 20, 20, 20, 20, 20, 20, 20] := by
  have ha : |(110:Rat) - 100| = 10 := by norm_num
  have hb : |(90:Rat) - 100| = 10 := by norm_num
  simp only [cexBars10, cexBar, trueRanges, trueRangesFrom, ha, hb]
  norm_num

/-- Evaluation: ATR(10) of the ten flat bars is exactly 20 (no NaN). -/
lemma atrLast_cexBars10 : atrLast cexBars10 10 = some 20 := by
  simp only [atrLast, trueRanges_cexBars10]
  norm_num

/-- Counterexample to claim C6 as stated: with ATR period 10 and ten
bars of history the ATR is well defined (20, no NaN) and at least
`period` bars are available, yet `_calculate_atr_stop` returns the
percentage stop 98 instead of the ATR stop `entry − ATR·multiplier =
60`, because the code gates on a hard-coded 20-bar minimum, not on
`period`. -/
theorem atr_stop_hardcoded_threshold_cex :
    atrLast cexBars10 10 = some 20
  ∧ atrCfg10.atrPeriod ≤ cexBars10.length
  ∧ calculateAtrStop atrCfg10 100 "long" (some cexBars10) = 98
  ∧ calculateAtrStop atrCfg10 100 "long" (some cexBars10) ≠ 100 - 20 * 2 := by
  have h98 : calculateAtrStop atrCfg10 100 "long" (some cexBars10) = 98 := by
    simp only [calculateAtrStop, cexBars10, calculatePercentageStop, atrCfg10]
    norm_num
  refine ⟨atrLast_cexBars10, by decide, h98, by rw [h98]; norm_num⟩

/-- Claim C6 (amended): the ATR stop `entry ∓ ATR(period)·multiplier` is
used exactly when at least 20 bars of history are available (a fixed
20-bar gate, independent of the configured period) and the ATR is not
NaN; fewer than 20 bars, a NaN ATR, or missing data fall back to the
percentage stop — a total function, never a run failure. -/
theorem atr_stop_gate_and_fallback (cfg : StopConfig) (entryPrice : Rat)
    (side : String) (bars : List Bar) :
    (∀ v, 20 ≤ bars.length → atrLast bars cfg.atrPeriod = some v →
      calculateAtrStop cfg entryPrice side (some bars)
        = (if side = "long" then entryPrice - v * cfg.multiplier
           else entryPrice + v * cfg.multiplier))
  ∧ (bars.length < 20 →
      calculateAtrStop cfg entryPrice side (some bars)
        = calculatePercentageStop cfg entryPrice side)
  ∧ (atrLast bars cfg.atrPeriod = none →
      calculateAtrStop cfg entryPrice side (some bars)
        = calculatePercentageStop cfg entryPrice side)
  ∧ calculateAtrStop cfg entryPrice side none
      = calculatePercentageStop cfg entryPrice side := by
  refine ⟨?_, ?_, ?_, rfl⟩
  · intro v h20 hv
    simp only [calculateAtrStop, if_neg (Nat.not_lt.mpr h20), hv]
  · intro h20
    simp only [calculateAtrStop, if_pos h20]
  · intro hnan
    by_cases h20 : bars.length < 20
    · simp only [calculateAtrStop, if_pos h20]
    · simp only [calculateAtrStop, if_neg h20, hnan]

/-- Witness for C6 (amended): ten bars are below the 20-bar gate, so the
ATR-configured manager returns the percentage stop. -/
theorem atr_stop_gate_and_fallback_witness :
    cexBars10.length < 20
  ∧ calculateAtrStop atrCfg10 100 "long" (some cexBars10)
      = calculatePercentageStop atrCfg10 100 "long" :=
  ⟨by decide, (atr_stop_gate_and_fallback atrCfg10 100 "long" cexBars10).2.1 (by decide)⟩

/-- The head of a `scanl` is its initial accumulator. -/
lemma head?_scanl {α β : Type} (f : α → β → α) (b : α) (l : List β) :
    (List.scanl f b l).head? = some b := by
  cases l <;> simp [List.scanl]

/-- A step function that only improves its accumulator yields a
`Chain'`-related `scanl`. -/
lemma chain'_scanl {α β : Type} (R : α → α → Prop) (f : α → β → α)
    (hf : ∀ s p, R s (f s p)) :
    ∀ (l : List β) (b : α), List.Chain' R (List.scanl f b l) := by
  intro l
  induction l with
  | nil =>
    intro b
    simp [List.scanl]
  | cons p ps ih =>
    intro b
    rw [List.scanl]
    rw [List.chain'_cons']
    refine ⟨?_, ih (f b p)⟩
    intro y hy
    rw [head?_scanl] at hy
    cases hy
    exact hf b p

/-- Per-step: a long trailing update never lowers the stop. -/
lemma updateTrailingStop_long_le (cfg : StopConfig) (entryPrice price curStop : Rat) :
    curStop ≤ updateTrailingStop cfg price curStop "long" entryPrice := by
  rw [updateTrailingStop]
  split_ifs with h1 h2 h3
  · exact le_refl _
  · exact le_max_left _ _
  · exact le_refl _
  · exact absurd rfl h2
  · exact absurd rfl h2

/-- Per-step: a trailing update for any non-long side never raises the
stop. -/
lemma updateTrailingStop_short_le (cfg : StopConfig) (entryPrice price curStop : Rat)
    (side : String) (hside : ¬side = "long") :
    updateTrailingStop cfg price curStop side entryPrice ≤ curStop := by
  rw [updateTrailingStop]
  split_ifs with h1 h2
  · exact le_refl _
  · exact min_le_left _ _
  · exact le_refl _

/-- Claim C5: a trailing-stop update accepts the recomputed stop only if
it tightens risk — `max(current, new)` for a long, `min(current, new)`
for a short, once the activation profit is reached — and consequently
the per-bar stop sequence of a long trade is non-decreasing and that of
a short trade is non-increasing; the stop is never loosened. -/
theorem trailing_stop_monotone (cfg : StopConfig) (entryPrice : Rat)
    (hEntry : 0 < entryPrice) :
    (∀ price curStop, curStop ≤ updateTrailingStop cfg price curStop "long" entryPrice)
  ∧ (∀ price curStop, updateTrailingStop cfg price curStop "short" entryPrice ≤ curStop)
  ∧ (∀ price curStop, cfg.stopType = "trailing" →
      cfg.activationPercent ≤ (price - entryPrice) / entryPrice →
      updateTrailingStop cfg price curStop "long" entryPrice
        = max curStop (price * (1 - cfg.trailingPercent)))
  ∧ (∀ price curStop, cfg.stopType = "trailing" →
      cfg.activationPercent ≤ (entryPrice - price) / entryPrice →
      updateTrailingStop cfg price curStop "short" entryPrice
        = min curStop (price * (1 + cfg.trailingPercent)))
  ∧ (∀ (prices : List Rat) (s0 : Rat),
      List.Chain' (fun a b => a ≤ b)
        (List.scanl (fun stp p => updateTrailingStop cfg p stp "long" entryPrice) s0 prices))
  ∧ (∀ (prices : List Rat) (s0 : Rat),
      List.Chain' (fun a b => b ≤ a)
        (List.scanl (fun stp p => updateTrailingStop cfg p stp "short" entryPrice) s0 prices)) := by
  refine ⟨fun price curStop => updateTrailingStop_long_le cfg entryPrice price curStop,
    fun price curStop => updateTrailingStop_short_le cfg entryPrice price curStop "short"
      (by decide),
    ?_, ?_, ?_, ?_⟩
  · intro price curStop htype hact
    have hne : ¬(cfg.stopType ≠ "trailing") := fun h => h htype
    rw [updateTrailingStop, if_neg hne, if_pos rfl, if_pos hact]
  · intro price curStop htype hact
    have hne : ¬(cfg.stopType ≠ "trailing") := fun h => h htype
    rw [updateTrailingStop, if_neg hne, if_neg (by decide : ¬("short" = "long")),
      if_pos hact]
  · intro prices s0
    exact chain'_scanl _ _ (fun s p => updateTrailingStop_long_le cfg entryPrice p s)
      prices s0
  · intro prices s0
    exact chain'_scanl _ _
      (fun s p => updateTrailingStop_short_le cfg entryPrice p s "short" (by decide))
      prices s0

/-- Witness for C5: once activated (5% profit against a 1% threshold),
the long update returns `max(current, price·(1−trailing_pct))` and in
particular never drops below the current stop. -/
theorem trailing_stop_monotone_witness :
    (0 : Rat) < 100
  ∧ trailCfg.stopType = "trailing"
  ∧ trailCfg.activationPercent ≤ (105 - 100) / (100 : Rat)
  ∧ updateTrailingStop trailCfg 105 99 "long" 100
      = max 99 (105 * (1 - trailCfg.trailingPercent)) :=
  ⟨by norm_num, rfl, by norm_num [trailCfg],
    (trailing_stop_monotone trailCfg 100 (by norm_num)).2.2.1 105 99 rfl
      (by norm_num [trailCfg])⟩

/-- Claim C10: `_close_position` computes the exit commission on the
trade's ORIGINAL size times the (slipped) exit price, not on the
remaining size actually being closed; whenever a partial exit has
already happened, the commission debited at the final close strictly
exceeds the commission on the quantity actually filled there. -/
theorem exit_commission_on_original_size (cfg : EngineCfg) (s : EngineState)
    (t : Trade) (exitPrice : Rat) (timestamp : Int) (reason : String)
    (hOpen : s.openTrade = some t) :
    ((closePosition cfg exitPrice timestamp reason s).capital
      = s.capital
        + (t.close timestamp (slipExit cfg t.side exitPrice) t.remainingSize reason).pnl
        - t.size * slipExit cfg t.side exitPrice * cfg.commission)
  ∧ (t.remainingSize < t.size → 0 < cfg.commission →
      0 < slipExit cfg t.side exitPrice →
      t.remainingSize * slipExit cfg t.side exitPrice * cfg.commission
        < t.size * slipExit cfg t.side exitPrice * cfg.commission) := by
  constructor
  · simp only [closePosition, hOpen, slipExit]
  · intro hrem hc hp
    exact mul_lt_mul_of_pos_right (mul_lt_mul_of_pos_right hrem hp) hc

/-- Witness for C10: a trade of original size 2 with 1/2 remaining, a
positive commission rate and a positive slipped price — the final-close
commission base strictly exceeds the remaining-quantity base. -/
theorem exit_commission_on_original_size_witness :
    c1State.openTrade = some c1Trade
  ∧ ((closePosition zeroSlipCfg 95 3 "backtest_end" c1State).capital
      = c1State.capital
        + (c1Trade.close 3 (slipExit zeroSlipCfg c1Trade.side 95) c1Trade.remainingSize
            "backtest_end").pnl
        - c1Trade.size * slipExit zeroSlipCfg c1Trade.side 95 * zeroSlipCfg.commission) :=
  ⟨rfl,
    (exit_commission_on_original_size zeroSlipCfg c1State c1Trade 95 3 "backtest_end" rfl).1⟩

/-- Claim C1: when an open trade's bar price satisfies the stop-loss
condition (and even an unfilled take-profit level too), `_check_exits`
tests the stop first: it closes the full remaining size at the trade's
stop price with reason `stop_loss`, returns without evaluating the
take-profit check (the take-profit manager state is untouched), and the
trade recorded on that bar carries the `stop_loss` reason, never a
take-profit one. -/
theorem stop_loss_wins_tie_break (cfg : EngineCfg) (slCfg : StopConfig)
    (s : EngineState) (t : Trade) (price : Rat) (timestamp : Int)
    (hOpen : s.openTrade = some t)
    (hStop : checkStopHit s.activeStop price = true)
    (hTp : (checkTakeProfitHit s.activeTp price).1.isSome = true) :
    (checkExits cfg slCfg price timestamp s).openTrade = none
  ∧ (checkExits cfg slCfg price timestamp s).activeTp = s.activeTp
  ∧ (checkExits cfg slCfg price timestamp s).closedTrades
      = s.closedTrades
        ++ [t.close timestamp (slipExit cfg t.side t.stopLoss) t.remainingSize "stop_loss"]
  ∧ (t.close timestamp (slipExit cfg t.side t.stopLoss) t.remainingSize
      "stop_loss").exitReason = "stop_loss"
  ∧ (t.close timestamp (slipExit cfg t.side t.stopLoss) t.remainingSize
      "stop_loss").remainingSize = 0 := by
  have hred : checkExits cfg slCfg price timestamp s
      = closePosition cfg t.stopLoss timestamp "stop_loss" s := by
    simp only [checkExits, hOpen, hStop, if_true]
  refine ⟨?_, ?_, ?_, ?_, ?_⟩
  · rw [hred]
    simp only [closePosition, hOpen]
  · rw [hred]
    simp only [closePosition, hOpen]
  · rw [hred]
    simp only [closePosition, hOpen, slipExit]
  · simp only [Trade.close]
  · simp only [Trade.close, sub_self]

/-- Witness for C1: a long trade whose stored stop 100 lies above its
take-profit level 90; at close price 95 both the stop condition and the
take-profit condition hold, and the exit check empties the open slot. -/
theorem stop_loss_wins_tie_break_witness :
    c1State.openTrade = some c1Trade
  ∧ checkStopHit c1State.activeStop 95 = true
  ∧ (checkTakeProfitHit c1State.activeTp 95).1.isSome = true
  ∧ (checkExits zeroSlipCfg trailCfg 95 7 c1State).openTrade = none := by
  have hStop : checkStopHit c1State.activeStop 95 = true := by
    norm_num [checkStopHit, c1State]
  have hTp : (checkTakeProfitHit c1State.activeTp 95).1.isSome = true := by
    norm_num [checkTakeProfitHit, c1State, tpScan, tpCrossed]
  exact ⟨rfl, hStop, hTp,
    (stop_loss_wins_tie_break zeroSlipCfg trailCfg c1State c1Trade 95 7 rfl hStop hTp).1⟩

/-- A level that did not fire is either already filled or uncrossed. -/
lemma notFireCases {f c : Bool} (h : ¬(f = false ∧ c = true)) :
    f = true ∨ c = false := by
  cases f
  · cases c
    · exact Or.inr rfl
    · exact absurd ⟨rfl, rfl⟩ h
  · exact Or.inl rfl

/-- Full characterization of the scanning loop of
`check_take_profit_hit`: `none` exactly when every zipped
(target, filled) pair is already filled or uncrossed (and then the
flags are unchanged); a hit is the LEAST list index holding an unfilled
crossed level, and exactly that flag is set. -/
lemma tpScan_spec (side : String) (price : Rat) :
    ∀ (ts : List (Rat × Rat)) (fs : List Bool),
      ((tpScan side price ts fs).1 = none →
        (tpScan side price ts fs).2 = fs
        ∧ ∀ p ∈ ts.zip fs, p.2 = true ∨ tpCrossed side price p.1.1 = false)
    ∧ (∀ i tpP e, (tpScan side price ts fs).1 = some (i, tpP, e) →
        (ts.zip fs).get? i = some ((tpP, e), false)
        ∧ tpCrossed side price tpP = true
        ∧ (∀ j q, j < i → (ts.zip fs).get? j = some q →
            q.2 = true ∨ tpCrossed side price q.1.1 = false)
        ∧ (tpScan side price ts fs).2 = fs.set i true) := by
  intro ts
  induction ts with
  | nil =>
    intro fs
    constructor
    · intro _
      exact ⟨rfl, by simp⟩
    · intro i tpP e h
      exact absurd h (by simp [tpScan])
  | cons hd tl ih =>
    intro fs
    cases fs with
    | nil =>
      constructor
      · intro _
        exact ⟨rfl, by simp⟩
      · intro i tpP e h
        exact absurd h (by cases hd; simp [tpScan])
    | cons f fs' =>
      obtain ⟨tpPrice, exitSize⟩ := hd
      by_cases hc : f = false ∧ tpCrossed side price tpPrice = true
      · have hstep : tpScan side price ((tpPrice, exitSize) :: tl) (f :: fs')
            = (some (0, tpPrice, exitSize), true :: fs') := by
          simp only [tpScan, if_pos hc]
        obtain ⟨hf, hcr⟩ := hc
        subst hf
        constructor
        · intro h
          rw [hstep] at h
          exact absurd h (by simp)
        · intro i tpP e h
          rw [hstep] at h
          injection h with h'
          simp only [Prod.mk.injEq] at h'
          obtain ⟨hi, hp, he⟩ := h'
          subst hp
          subst he
          subst hi
          refine ⟨rfl, hcr, ?_, ?_⟩
          · intro j q hj _
            exact absurd hj (Nat.not_lt_zero j)
          · rw [hstep]
            rfl
      · have hstep : tpScan side price ((tpPrice, exitSize) :: tl) (f :: fs')
            = ((tpScan side price tl fs').1.map (fun hit => (hit.1 + 1, hit.2)),
               f :: (tpScan side price tl fs').2) := by
          simp only [tpScan, if_neg hc]
        constructor
        · intro h
          rw [hstep] at h
          simp only [Option.map_eq_none'] at h
          obtain ⟨hsnd, hall⟩ := (ih fs').1 h
          constructor
          · rw [hstep, hsnd]
          · intro p hp
            rw [List.zip_cons_cons] at hp
            rcases List.mem_cons.mp hp with hhd | htl
            · subst hhd
              exact notFireCases hc
            · exact hall p htl
        · intro i tpP e h
          rw [hstep] at h
          simp only [Option.map_eq_some'] at h
          obtain ⟨a, ha, hg⟩ := h
          obtain ⟨i', tpP', e'⟩ := a
          simp only [Prod.mk.injEq] at hg
          obtain ⟨hi, rfl, rfl⟩ := hg
          subst hi
          obtain ⟨hget, hcr, hleast, hsnd⟩ := (ih fs').2 i' tpP' e' ha
          refine ⟨?_, hcr, ?_, ?_⟩
          · rw [List.zip_cons_cons]
            simpa using hget
          · intro j q hj hq
            rw [List.zip_cons_cons] at hq
            cases j with
            | zero =>
              simp only [List.get?_cons_zero, Option.some.injEq] at hq
              subst hq
              exact notFireCases hc
            | succ j' =>
              have hj' : j' < i' := by omega
              exact hleast j' q hj' (by simpa using hq)
          · rw [hstep, hsnd]
            rfl

/-- Evaluation: at price 120 the manager entry `c9Info` (levels 110 then
105, both unfilled) fires level 0 — the 110 level — and marks only it
filled. -/
lemma checkTpHit_c9Info_eval :
    checkTakeProfitHit (some c9Info) 120
      = (some (0, 110, 1/2), some { c9Info with filled := [true, false] }) := by
  norm_num [checkTakeProfitHit, c9Info, tpScan, tpCrossed]

/-- Counterexample to claim C9 as stated: with the stored level list out
of nearest-first order (110 before 105, long from entry 100), a price of
120 crosses both unfilled levels but the check returns the FIRST level
in list order — 110 — which is strictly farther from the entry than the
also-crossed 105 level; evaluation is by stored order, not
nearest-first. -/
theorem tp_check_not_nearest_first_cex :
    (checkTakeProfitHit (some c9Info) 120).1 = some (0, 110, 1/2)
  ∧ tpCrossed c9Info.side 120 105 = true
  ∧ c9Info.filled.get? 1 = some false
  ∧ |(105 : Rat) - c9Info.entryPrice| < |(110 : Rat) - c9Info.entryPrice| := by
  refine ⟨by rw [checkTpHit_c9Info_eval], ?_, rfl, ?_⟩
  · norm_num [tpCrossed, c9Info]
  · norm_num [c9Info]

/-- Claim C9 (amended): `check_take_profit_hit` walks the unfilled
levels in STORED LIST ORDER (which coincides with nearest-first only
when the list is so sorted): it returns at most one fired level per call
— the least-index unfilled level the price has crossed — marks exactly
that level filled, leaves every other crossed level to a later call, and
returns nothing (flags untouched) when no unfilled level is crossed. -/
theorem tp_check_fires_least_index (info : TpInfo) (price : Rat) :
    ((checkTakeProfitHit (some info) price).1 = none ↔
      ∀ p ∈ info.targets.zip info.filled,
        p.2 = true ∨ tpCrossed info.side price p.1.1 = false)
  ∧ ((checkTakeProfitHit (some info) price).1 = none →
      (checkTakeProfitHit (some info) price).2 = some info)
  ∧ (∀ i tpP e, (checkTakeProfitHit (some info) price).1 = some (i, tpP, e) →
      (info.targets.zip info.filled).get? i = some ((tpP, e), false)
      ∧ tpCrossed info.side price tpP = true
      ∧ (∀ j q, j < i → (info.targets.zip info.filled).get? j = some q →
          q.2 = true ∨ tpCrossed info.side price q.1.1 = false)
      ∧ (checkTakeProfitHit (some info) price).2
          = some { info with filled := info.filled.set i true }) := by
  have hfst : (checkTakeProfitHit (some info) price).1
      = (tpScan info.side price info.targets info.filled).1 := rfl
  have hsnd : (checkTakeProfitHit (some info) price).2
      = some { info with filled := (tpScan info.side price info.targets info.filled).2 } :=
    rfl
  refine ⟨⟨?_, ?_⟩, ?_, ?_⟩
  · intro h
    rw [hfst] at h
    exact ((tpScan_spec info.side price info.targets info.filled).1 h).2
  · intro hall
    rw [hfst]
    cases hr : (tpScan info.side price info.targets info.filled).1 with
    | none => rfl
    | some v =>
      obtain ⟨i, tpP, e⟩ := v
      obtain ⟨hget, hcr, _, _⟩ :=
        (tpScan_spec info.side price info.targets info.filled).2 i tpP e hr
      have hmem : ((tpP, e), false) ∈ info.targets.zip info.filled :=
        List.get?_mem hget
      rcases hall _ hmem with hfill | hcross
      · exact absurd hfill (by simp)
      · rw [hcr] at hcross
        exact absurd hcross (by simp)
  · intro h
    rw [hfst] at h
    rw [hsnd, ((tpScan_spec info.side price info.targets info.filled).1 h).1]
  · intro i tpP e h
    rw [hfst] at h
    obtain ⟨hget, hcr, hleast, hset⟩ :=
      (tpScan_spec info.side price info.targets info.filled).2 i tpP e h
    exact ⟨hget, hcr, hleast, by rw [hsnd, hset]⟩

/-- Witness for C9 (amended): applying the characterization to the
concrete entry `c9Info` at price 120 — the fired level sits at index 0
of the zip with its flag false, and exactly that flag is set. -/
theorem tp_check_fires_least_index_witness :
    (c9Info.targets.zip c9Info.filled).get? 0 = some ((110, 1/2), false)
  ∧ tpCrossed c9Info.side 120 110 = true
  ∧ (checkTakeProfitHit (some c9Info) 120).2
      = some { c9Info with filled := c9Info.filled.set 0 true } :=
  ⟨((tp_check_fires_least_index c9Info 120).2.2 0 110 (1/2)
      (by rw [checkTpHit_c9Info_eval])).1,
   ((tp_check_fires_least_index c9Info 120).2.2 0 110 (1/2)
      (by rw [checkTpHit_c9Info_eval])).2.1,
   ((tp_check_fires_least_index c9Info 120).2.2 0 110 (1/2)
      (by rw [checkTpHit_c9Info_eval])).2.2.2⟩

/-- `checkExitsTp` when no level fires: only the manager entries move. -/
lemma checkExitsTp_none (cfg : EngineCfg) (price : Rat) (timestamp : Int)
    (trade : Trade) (s1 : EngineState)
    (h : (checkTakeProfitHit s1.activeTp price).1 = none) :
    checkExitsTp cfg price timestamp trade s1
      = { s1 with activeTp := (checkTakeProfitHit s1.activeTp price).2 } := by
  simp only [checkExitsTp, h]

/-- `checkExitsTp` when the fired level completes the ladder: full close
with reason `take_profit_final`. -/
lemma checkExitsTp_some_full (cfg : EngineCfg) (price : Rat) (timestamp : Int)
    (trade : Trade) (s1 : EngineState) (i : Nat) (tpP e : Rat)
    (h : (checkTakeProfitHit s1.activeTp price).1 = some (i, tpP, e))
    (hAll : allTargetsFilled (checkTakeProfitHit s1.activeTp price).2 = true) :
    checkExitsTp cfg price timestamp trade s1
      = closePosition cfg tpP timestamp "take_profit_final"
          { s1 with activeTp := (checkTakeProfitHit s1.activeTp price).2 } := by
  simp only [checkExitsTp, h, hAll, if_true]

/-- `checkExitsTp` when a level fires but others stay open: partial
close of `remaining_size * exit_size`. -/
lemma checkExitsTp_some_part (cfg : EngineCfg) (price : Rat) (timestamp : Int)
    (trade : Trade) (s1 : EngineState) (i : Nat) (tpP e : Rat)
    (h : (checkTakeProfitHit s1.activeTp price).1 = some (i, tpP, e))
    (hAll : allTargetsFilled (checkTakeProfitHit s1.activeTp price).2 = false) :
    checkExitsTp cfg price timestamp trade s1
      = partClose cfg tpP timestamp (trade.remainingSize * e)
          ("take_profit_" ++ toString i)
          { s1 with activeTp := (checkTakeProfitHit s1.activeTp price).2 } := by
  simp only [checkExitsTp, h, hAll, Bool.false_eq_true, if_false]

/-- A Bool that is not `true` is `false`. -/
lemma bool_eq_false {b : Bool} (h : ¬b = true) : b = false := by
  cases b
  · rfl
  · exact absurd rfl h

/-- An exit size returned by `check_take_profit_hit` is one of the
registered levels' exit fractions. -/
lemma checkTpHit_exitSize_mem (activeTp : Option TpInfo) (price : Rat)
    (i : Nat) (tpP e : Rat)
    (h : (checkTakeProfitHit activeTp price).1 = some (i, tpP, e)) :
    e ∈ tpFracs activeTp := by
  cases activeTp with
  | none => exact absurd h (by simp [checkTakeProfitHit])
  | some info =>
    have hscan : (tpScan info.side price info.targets info.filled).1 = some (i, tpP, e) := h
    obtain ⟨hget, _, _, _⟩ :=
      (tpScan_spec info.side price info.targets info.filled).2 i tpP e hscan
    have hmem : ((tpP, e), false) ∈ info.targets.zip info.filled := List.get?_mem hget
    have : (tpP, e) ∈ info.targets := (List.of_mem_zip hmem).1
    exact List.mem_map_of_mem Prod.snd this

/-- The remaining size after `Trade.close`. -/
lemma Trade_close_remaining (t : Trade) (timestamp : Int) (price sz : Rat)
    (reason : String) :
    (t.close timestamp price sz reason).remainingSize = t.remainingSize - sz := by
  simp [Trade.close]

/-- Claim C3 (amended): exit bookkeeping over `Trade.close` is exactly
conservative — after any sequence of closes the remaining size is the
original minus the sum of closed sizes, so closed sizes plus remaining
equal the original exactly; under exit fractions in [0,1] each
`_check_exits` step keeps the remaining size non-negative and
non-increasing; the closed ledger is append-only; and once the open slot
is empty the exit check leaves the state untouched, so ledger trades are
never mutated again.  (The original claim's further assertion — that
reaching zero remaining size implies transfer to the closed ledger —
fails, see the counterexample.) -/
theorem trade_size_conservation (cfg : EngineCfg) (slCfg : StopConfig) :
    (∀ (t0 : Trade) (ops : List CloseOp),
      (applyCloses t0 ops).remainingSize
        = t0.remainingSize - (ops.map CloseOp.sz).sum)
  ∧ (∀ (s : EngineState) (t t' : Trade) (price : Rat) (timestamp : Int),
      s.openTrade = some t → 0 ≤ t.remainingSize →
      (∀ f ∈ tpFracs s.activeTp, 0 ≤ f ∧ f ≤ 1) →
      (checkExits cfg slCfg price timestamp s).openTrade = some t' →
      0 ≤ t'.remainingSize ∧ t'.remainingSize ≤ t.remainingSize)
  ∧ (∀ (s : EngineState) (price : Rat) (timestamp : Int),
      ∃ tail, (checkExits cfg slCfg price timestamp s).closedTrades
        = s.closedTrades ++ tail)
  ∧ (∀ (s : EngineState) (price : Rat) (timestamp : Int),
      s.openTrade = none → checkExits cfg slCfg price timestamp s = s) := by
  refine ⟨?_, ?_, ?_, ?_⟩
  · intro t0 ops
    induction ops generalizing t0 with
    | nil => simp [applyCloses]
    | cons o os ih =>
      have hstep : applyCloses t0 (o :: os)
          = applyCloses (t0.close o.time o.price o.sz o.reason) os := rfl
      rw [hstep, ih, Trade_close_remaining]
      simp [List.sum_cons]
      ring
  · intro s t t' price timestamp hOpen hNN hFr hOut
    by_cases hS : checkStopHit s.activeStop price = true
    · have hnone : (checkExits cfg slCfg price timestamp s).openTrade = none := by
        simp only [checkExits, hOpen, hS, if_true, closePosition]
      rw [hnone] at hOut
      exact absurd hOut (by simp)
    · have hS' : checkStopHit s.activeStop price = false := bool_eq_false hS
      have hred : checkExits cfg slCfg price timestamp s
          = checkExitsTp cfg price timestamp t
              { s with activeStop := updateStopLoss slCfg s.activeStop price } := by
        simp only [checkExits, hOpen, hS', Bool.false_eq_true, if_false]
      rw [hred] at hOut
      cases hr : (checkTakeProfitHit s.activeTp price).1 with
      | none =>
        rw [checkExitsTp_none cfg price timestamp t
          { s with activeStop := updateStopLoss slCfg s.activeStop price } hr] at hOut
        have hOut' : some t = some t' := by
          rw [← hOpen]
          exact hOut
        cases hOut'
        exact ⟨hNN, le_refl _⟩
      | some v =>
        obtain ⟨i, tpP, e⟩ := v
        by_cases hA : allTargetsFilled (checkTakeProfitHit s.activeTp price).2 = true
        · rw [checkExitsTp_some_full cfg price timestamp t
          { s with activeStop := updateStopLoss slCfg s.activeStop price } i tpP e hr hA] at hOut
          have hnone : (closePosition cfg tpP timestamp "take_profit_final"
              { { s with activeStop := updateStopLoss slCfg s.activeStop price }
                with activeTp := (checkTakeProfitHit s.activeTp price).2 }).openTrade
              = none := by
            simp only [closePosition, hOpen]
          rw [hnone] at hOut
          exact absurd hOut (by simp)
        · have hA' := bool_eq_false hA
          rw [checkExitsTp_some_part cfg price timestamp t
          { s with activeStop := updateStopLoss slCfg s.activeStop price } i tpP e hr hA'] at hOut
          have hfrac := hFr e (checkTpHit_exitSize_mem s.activeTp price i tpP e hr)
          have hsome : (partClose cfg tpP timestamp (t.remainingSize * e)
              ("take_profit_" ++ toString i)
              { { s with activeStop := updateStopLoss slCfg s.activeStop price }
                with activeTp := (checkTakeProfitHit s.activeTp price).2 }).openTrade
              = some (t.close timestamp (slipExit cfg t.side tpP)
                  (t.remainingSize * e) ("take_profit_" ++ toString i)) := by
            simp only [partClose, hOpen, slipExit]
          rw [hsome] at hOut
          cases hOut
          rw [Trade_close_remaining]
          constructor
          · have : t.remainingSize * e ≤ t.remainingSize * 1 :=
              mul_le_mul_of_nonneg_left hfrac.2 hNN
            rw [mul_one] at this
            exact sub_nonneg.mpr this
          · exact sub_le_self _ (mul_nonneg hNN hfrac.1)
  · intro s price timestamp
    cases hO : s.openTrade with
    | none =>
      refine ⟨[], ?_⟩
      simp only [checkExits, hO, List.append_nil]
    | some t =>
      by_cases hS : checkStopHit s.activeStop price = true
      · refine ⟨[t.close timestamp (slipExit cfg t.side t.stopLoss)
          t.remainingSize "stop_loss"], ?_⟩
        simp only [checkExits, hO, hS, if_true, closePosition, slipExit]
      · have hS' : checkStopHit s.activeStop price = false := bool_eq_false hS
        have hred : checkExits cfg slCfg price timestamp s
            = checkExitsTp cfg price timestamp t
                { s with activeStop := updateStopLoss slCfg s.activeStop price } := by
          simp only [checkExits, hO, hS', Bool.false_eq_true, if_false]
        rw [hred]
        cases hr : (checkTakeProfitHit s.activeTp price).1 with
        | none =>
          refine ⟨[], ?_⟩
          rw [checkExitsTp_none cfg price timestamp t
          { s with activeStop := updateStopLoss slCfg s.activeStop price } hr]
          simp only [List.append_nil]
        | some v =>
          obtain ⟨i, tpP, e⟩ := v
          by_cases hA : allTargetsFilled (checkTakeProfitHit s.activeTp price).2 = true
          · refine ⟨[t.close timestamp (slipExit cfg t.side tpP)
              t.remainingSize "take_profit_final"], ?_⟩
            rw [checkExitsTp_some_full cfg price timestamp t
          { s with activeStop := updateStopLoss slCfg s.activeStop price } i tpP e hr hA]
            simp only [closePosition, hO, slipExit]
          · have hA' := bool_eq_false hA
            refine ⟨[], ?_⟩
            rw [checkExitsTp_some_part cfg price timestamp t
          { s with activeStop := updateStopLoss slCfg s.activeStop price } i tpP e hr hA']
            simp only [partClose, hO, List.append_nil]
  · intro s price timestamp hO
    simp only [checkExits, hO]

/-- Evaluation: at price 110 the manager entry of `c3xState` fires level
0 with exit fraction 1, marking only that level filled. -/
lemma checkTpHit_c3xState_eval :
    checkTakeProfitHit c3xState.activeTp 110
      = (some (0, 110, 1),
         some { targets := [(110, 1), (120, 1/2)], entryPrice := 100, side := "long",
                filled := [true, false] }) := by
  norm_num [checkTakeProfitHit, c3xState, tpScan, tpCrossed]

/-- Evaluation: `_check_exits` on `c3xState` at price 110 runs the
partial-close branch with the full remaining size (fraction 1). -/
lemma checkExits_c3xState_eval :
    checkExits zeroSlipCfg defaultStopCfg 110 1 c3xState
      = partClose zeroSlipCfg 110 1 (c3xTrade.remainingSize * 1)
          ("take_profit_" ++ toString 0)
          { c3xState with
            activeStop := updateStopLoss defaultStopCfg c3xState.activeStop 110,
            activeTp := (checkTakeProfitHit c3xState.activeTp 110).2 } := by
  have hstop : checkStopHit c3xState.activeStop 110 = false := by
    norm_num [checkStopHit, c3xState]
  have hall : allTargetsFilled (checkTakeProfitHit c3xState.activeTp 110).2 = false := by
    rw [checkTpHit_c3xState_eval]
    norm_num [allTargetsFilled]
  have h1 : checkExits zeroSlipCfg defaultStopCfg 110 1 c3xState
      = checkExitsTp zeroSlipCfg 110 1 c3xTrade
          { c3xState with
            activeStop := updateStopLoss defaultStopCfg c3xState.activeStop 110 } := by
    simp only [checkExits, show c3xState.openTrade = some c3xTrade from rfl, hstop,
      Bool.false_eq_true, if_false]
  rw [h1, checkExitsTp_some_part zeroSlipCfg 110 1 c3xTrade
    { c3xState with activeStop := updateStopLoss defaultStopCfg c3xState.activeStop 110 }
    0 110 1 (congrArg Prod.fst checkTpHit_c3xState_eval) hall]

/-- Counterexample to claim C3 as stated: the two-level ladder built by
`calculate_take_profit` from a `partial_exits` entry without a `level`
key has exit fraction 1 at its non-final level; at price 110
`_check_exits` partially closes the FULL remaining size, driving the
remaining size to 0, yet the trade stays in the open map and the closed
ledger stays empty — reaching zero remaining size does not move the
trade to the closed ledger. -/
theorem zero_remaining_not_moved_to_ledger_cex :
    calculateRiskRewardTp rrFullFirstCfg 100 90 "long" = [(110, 1), (120, 1/2)]
  ∧ ((checkExits zeroSlipCfg defaultStopCfg 110 1 c3xState).openTrade.map
      Trade.remainingSize) = some 0
  ∧ (checkExits zeroSlipCfg defaultStopCfg 110 1 c3xState).closedTrades = []
  ∧ ((checkExits zeroSlipCfg defaultStopCfg 110 1 c3xState).openTrade.map
      Trade.isClosed) = some true := by
  refine ⟨?_, ?_, ?_, ?_⟩
  · norm_num [calculateRiskRewardTp, rrFullFirstCfg]
    exact List.cons_ne_nil _ _
  · rw [checkExits_c3xState_eval]
    simp only [partClose, show c3xState.openTrade = some c3xTrade from rfl,
      Option.map_some', Trade_close_remaining]
    norm_num [c3xTrade]
  · rw [checkExits_c3xState_eval]
    simp only [partClose, show c3xState.openTrade = some c3xTrade from rfl]
    rfl
  · rw [checkExits_c3xState_eval]
    simp only [partClose, show c3xState.openTrade = some c3xTrade from rfl,
      Option.map_some', Trade.isClosed, Trade_close_remaining]
    norm_num [c3xTrade]

/-- Witness for C3 (amended): the half-out ladder state `c3wState` — the
step hypotheses hold and the resulting open trade keeps a remaining size
in `[0, 2]`. -/
theorem trade_size_conservation_witness :
    (applyCloses c3wTrade [⟨1, 110, 1, "take_profit_0"⟩]).remainingSize
      = c3wTrade.remainingSize - 1
  ∧ (0 : Rat) ≤ (c3wTrade.close 1 110 1 ("take_profit_" ++ toString 0)).remainingSize
  ∧ (c3wTrade.close 1 110 1 ("take_profit_" ++ toString 0)).remainingSize
      ≤ c3wTrade.remainingSize := by
  have hcons := (trade_size_conservation zeroSlipCfg defaultStopCfg).1 c3wTrade
    [⟨1, 110, 1, "take_profit_0"⟩]
  have hstop : checkStopHit c3wState.activeStop 110 = false := by
    norm_num [checkStopHit, c3wState]
  have htp : checkTakeProfitHit c3wState.activeTp 110
      = (some (0, 110, 1/2),
         some { targets := [(110, 1/2), (120, 1/2)], entryPrice := 100, side := "long",
                filled := [true, false] }) := by
    norm_num [checkTakeProfitHit, c3wState, tpScan, tpCrossed]
  have hall : allTargetsFilled (checkTakeProfitHit c3wState.activeTp 110).2 = false := by
    rw [htp]
    norm_num [allTargetsFilled]
  have hout : (checkExits zeroSlipCfg defaultStopCfg 110 1 c3wState).openTrade
      = some (c3wTrade.close 1 (slipExit zeroSlipCfg c3wTrade.side 110)
          (c3wTrade.remainingSize * (1/2)) ("take_profit_" ++ toString 0)) := by
    have h1 : checkExits zeroSlipCfg defaultStopCfg 110 1 c3wState
        = checkExitsTp zeroSlipCfg 110 1 c3wTrade
            { c3wState with
              activeStop := updateStopLoss defaultStopCfg c3wState.activeStop 110 } := by
      simp only [checkExits, show c3wState.openTrade = some c3wTrade from rfl, hstop,
        Bool.false_eq_true, if_false]
    rw [h1, checkExitsTp_some_part zeroSlipCfg 110 1 c3wTrade
      { c3wState with activeStop := updateStopLoss defaultStopCfg c3wState.activeStop 110 }
      0 110 (1/2) (congrArg Prod.fst htp) hall]
    simp only [partClose, show c3wState.openTrade = some c3wTrade from rfl, slipExit]
  have hstep := (trade_size_conservation zeroSlipCfg defaultStopCfg).2.1 c3wState c3wTrade
    (c3wTrade.close 1 (slipExit zeroSlipCfg c3wTrade.side 110)
      (c3wTrade.remainingSize * (1/2)) ("take_profit_" ++ toString 0))
    110 1 rfl (by norm_num [c3wTrade]) (by norm_num [tpFracs, c3wState]) hout
  have heq : c3wTrade.close 1 (slipExit zeroSlipCfg c3wTrade.side 110)
      (c3wTrade.remainingSize * (1/2)) ("take_profit_" ++ toString 0)
      = c3wTrade.close 1 110 1 ("take_profit_" ++ toString 0) := by
    norm_num [slipExit, zeroSlipCfg, c3wTrade]
  rw [heq] at hstep
  exact ⟨by rw [hcons]; norm_num, hstep.1, hstep.2⟩

/-- Counterexample to claim C2 as stated: the engine hands the strategy
`df.iloc[:i+1]`, which INCLUDES bar `i`.  The series `dfA` and `dfB`
agree on every bar strictly before index 2, yet a close-keyed strategy
receives different decisions at bar 2 — agreement strictly before the
decision bar does not determine the decision. -/
theorem signal_sees_decision_bar_cex :
    dfA.take 2 = dfB.take 2
  ∧ signalAt lastCloseStrategy dfA 2 = Except.ok SignalType.HOLD
  ∧ signalAt lastCloseStrategy dfB 2 = Except.ok SignalType.BUY
  ∧ signalAt lastCloseStrategy dfA 2 ≠ signalAt lastCloseStrategy dfB 2 := by
  have h1 : signalAt lastCloseStrategy dfA 2 = Except.ok SignalType.HOLD := by
    have htake : dfA.take (2 + 1) = dfA := rfl
    have hlast : ((dfA.getLast?).map Bar.close).getD 0 = 50 := rfl
    unfold signalAt lastCloseStrategy
    rw [htake, hlast]
    norm_num
  have h2 : signalAt lastCloseStrategy dfB 2 = Except.ok SignalType.BUY := by
    have htake : dfB.take (2 + 1) = dfB := rfl
    have hlast : ((dfB.getLast?).map Bar.close).getD 0 = 150 := rfl
    unfold signalAt lastCloseStrategy
    rw [htake, hlast]
    norm_num
  refine ⟨rfl, h1, h2, ?_⟩
  intro hcontra
  rw [h1, h2] at hcontra
  injection hcontra with h'
  exact SignalType.noConfusion h'

/-- Claim C2 (amended): the decision at bar `t` is a function of the
bars with timestamp ≤ t — the slice `df.iloc[:i+1]` handed to the
strategy: series agreeing up to AND INCLUDING the decision bar yield
identical decisions, and mutating bars strictly after the decision bar
never changes the decision (no access to future bars). -/
theorem signal_depends_on_bars_up_to_decision_bar :
    (∀ (strategy : Strategy) (df1 df2 : List Bar) (i : Nat),
      df1.take (i + 1) = df2.take (i + 1) →
      signalAt strategy df1 i = signalAt strategy df2 i)
  ∧ (∀ (strategy : Strategy) (df rest rest' : List Bar) (i : Nat),
      df.length = i + 1 →
      signalAt strategy (df ++ rest) i = signalAt strategy (df ++ rest') i) := by
  constructor
  · intro strategy df1 df2 i h
    unfold signalAt
    rw [h]
  · intro strategy df rest rest' i h
    unfold signalAt
    rw [List.take_left' h, List.take_left' h]

/-- Witness for C2 (amended): appending a wild future bar after the
3-bar decision history leaves the bar-2 decision unchanged. -/
theorem signal_depends_on_bars_up_to_decision_bar_witness :
    dfA.length = 2 + 1
  ∧ signalAt lastCloseStrategy (dfA ++ [mkBar 3 999]) 2
      = signalAt lastCloseStrategy (dfA ++ []) 2 :=
  ⟨rfl, signal_depends_on_bars_up_to_decision_bar.2 lastCloseStrategy dfA
    [mkBar 3 999] [] 2 rfl⟩

/-- Inside the warm-up prefix the bar loop never consults the strategy;
at the first consulted bar (index 100) an adapter exception propagates
out of the whole loop — there is no handler. -/
lemma runBars_strategy_error (cfg : EngineCfg) (slCfg : StopConfig)
    (szCfg : SizerConfig) (tpCalc : TpCalc) (strategy : Strategy)
    (allBars : List Bar) (e : String)
    (hlen : 100 < allBars.length)
    (herr : strategy (allBars.take 101) = Except.error e) :
    ∀ (rest : List Bar) (k : Nat) (s : EngineState),
      rest = allBars.drop k → k ≤ 100 →
      runBars cfg slCfg szCfg tpCalc strategy allBars rest k s = Except.error e := by
  intro rest
  induction rest with
  | nil =>
    intro k s hdrop hk
    exfalso
    have hle : allBars.length ≤ k := by
      rw [← List.drop_eq_nil_iff]
      exact hdrop.symm
    omega
  | cons b rest' ih =>
    intro k s hdrop hk
    by_cases hklt : k < 100
    · have hdrop' : rest' = allBars.drop (k + 1) := by
        have hshift : allBars.drop (k + 1) = (allBars.drop k).tail :=
          (List.tail_drop allBars k).symm
        rw [hshift, ← hdrop]
        rfl
      simp only [runBars, if_pos hklt]
      exact ih (k + 1) _ hdrop' (by omega)
    · have hk100 : k = 100 := by omega
      subst hk100
      simp only [runBars, if_neg hklt]
      rw [show (100 : Nat) + 1 = 101 from rfl, herr]

/-- Claim C7 (amended): the engine does NOT catch a strategy exception —
`run` wraps `generate_signal` in no handler, so an adapter error at the
first evaluated bar (index 100, right after the warm-up) aborts the
entire backtest with that error instead of treating the bar as Hold and
continuing. -/
theorem strategy_error_aborts_run (cfg : EngineCfg) (slCfg : StopConfig)
    (szCfg : SizerConfig) (tpCalc : TpCalc) (strategy : Strategy)
    (initialCapital : Rat) (bars : List Bar) (e : String)
    (hlen : 100 < bars.length)
    (herr : strategy (bars.take 101) = Except.error e) :
    run cfg slCfg szCfg tpCalc strategy initialCapital bars = Except.error e := by
  simp only [run]
  rw [runBars_strategy_error cfg slCfg szCfg tpCalc strategy bars e hlen herr bars 0 _
    (List.drop_zero bars).symm (by omega)]

/-- Counterexample to claim C7 as stated: an always-raising strategy on
101 bars aborts the whole backtest with its error — nothing is caught,
no Hold substitution happens, no result is produced. -/
theorem strategy_error_not_caught_cex :
    run zeroSlipCfg defaultStopCfg {} (riskRewardTpCalc {}) errStrategy 10000 flatBars
      = Except.error "boom" := rfl

/-- Witness for C7 (amended): 120 bars, error raised on the 101-bar
slice, whole run aborted with `strategy failure`. -/
theorem strategy_error_aborts_run_witness :
    100 < flatBars120.length
  ∧ errStrategy2 (flatBars120.take 101) = Except.error "strategy failure"
  ∧ run zeroSlipCfg defaultStopCfg {} (riskRewardTpCalc {}) errStrategy2 5000 flatBars120
      = Except.error "strategy failure" :=
  ⟨by norm_num [flatBars120], rfl,
    strategy_error_aborts_run zeroSlipCfg defaultStopCfg {} (riskRewardTpCalc {})
      errStrategy2 5000 flatBars120 "strategy failure" (by norm_num [flatBars120]) rfl⟩

end CryptoBot
